import Mathlib

/-!
Verification development for the secure image-transcoding pipeline
(package imageprocessing): a shallow embedding of the security gate,
the resource lifecycle, the RAW converter and the adaptive encoder,
together with proofs of the specified properties.

Modelling conventions:
* Go strings are Lean `String`s; byte lengths use `String.utf8ByteSize`
  (Go `len`) where it matters.
* Go `float64` scale arithmetic is modelled with `Rat`; the factors
  involved (0.6, 0.75, 0.85, 0.8, 0.1) are exact decimals and every
  property proved is robust to the rounding difference.
* File-system and process effects are modelled explicitly: a file system
  is a list of (path, permission) pairs, and a spawned subprocess is an
  `ExecCall` value recorded in the function result, so "no subprocess is
  spawned" is "the list of recorded calls is empty".
-/

/-! ## Security configuration (config.go) -/

/-- Go `MaxFileSize = 100 * 1024 * 1024`. -/
def MaxFileSize : Nat := 100 * 1024 * 1024

/-- Go `AllowedImageExts = ".png,.jpg,.jpeg,.webp,.tiff,.bmp,.arw,.srf,.sr2"`. -/
def AllowedImageExts : String := ".png,.jpg,.jpeg,.webp,.tiff,.bmp,.arw,.srf,.sr2"

/-- Go `SecurityConfig` (the command timeout is wall-clock time, kept as a
plain number of seconds; it does not influence any validated property). -/
structure SecurityConfig where
  AllowedCommands : List String
  AllowedTempDir : String
  MaxFileSizeField : Int
  CommandTimeout : Nat
  EnableInputValidation : Bool
deriving DecidableEq

/-- The system temporary directory (`os.TempDir()` on a Unix host). -/
def osTempDir : String := "/tmp"

/-- Go `DefaultSecurityConfig()`. -/
def DefaultSecurityConfig : SecurityConfig :=
  { AllowedCommands := ["darktable-cli", "echo"]
    AllowedTempDir := osTempDir
    MaxFileSizeField := (MaxFileSize : Int)
    CommandTimeout := 30
    EnableInputValidation := true }

/-- The character class of the Go regexp `dangerousCommandChars`,
which is written (with regexp escaping removed) as the fifteen
characters semicolon, ampersand, pipe, backquote, single quote, double
quote, parentheses, curly braces, square brackets, dollar, less-than,
greater-than. The quote-like and brace characters are spelled with
`Char.ofNat` (34, 39, 96, 123, 125). -/
def dangerousCommandCharList : List Char :=
  [';', '&', '|', Char.ofNat 96, Char.ofNat 39, Char.ofNat 34,
   '(', ')', Char.ofNat 123, Char.ofNat 125, '[', ']', '$', '<', '>']

/-- `dangerousCommandChars.MatchString s`: the regexp is a bare character
class, so it matches iff some character of `s` is in the class. -/
def hasDangerousCommandChars (s : String) : Bool :=
  s.toList.any (fun c => dangerousCommandCharList.contains c)

/-- Does `hay` start with `needle`? -/
def startsWithList (needle hay : List Char) : Bool :=
  match needle, hay with
  | [], _ => true
  | _ :: _, [] => false
  | a :: as, b :: bs => a = b && startsWithList as bs

/-- Does `hay` contain `needle` as a contiguous subsequence? -/
def containsSeq (needle : List Char) : List Char → Bool
  | [] => startsWithList needle []
  | c :: rest => startsWithList needle (c :: rest) || containsSeq needle rest

/-- Go `strings.Contains s sub` (substring test). -/
def goStringsContains (s sub : String) : Bool :=
  containsSeq sub.toList s.toList

/-- `dangerousPathChars.MatchString s`: the regexp matches two literal
dots followed by a forward or backward slash, anywhere in `s`. -/
def hasDangerousPathChars (s : String) : Bool :=
  goStringsContains s "../" || goStringsContains s "..\\"

/-! ## validateCommandName / validateCommandArgs / safeExecuteCommand -/

/-- Go `validateCommandName` (config.go lines 132-145): the command must
be in the allow-list and contain no dangerous character. -/
def validateCommandName (cmdName : String) (config : SecurityConfig) : Except String Unit :=
  if !(config.AllowedCommands.contains cmdName) then
    .error ("command not allowed: " ++ cmdName)
  else if hasDangerousCommandChars cmdName then
    .error ("command contains dangerous characters: " ++ cmdName)
  else
    .ok ()

/-- Go `validateCommandArgs` (config.go lines 147-167): every argument
must be free of dangerous command characters, free of path-traversal
sequences, and at most 4096 bytes long. -/
def validateCommandArgs (args : List String) : Except String Unit :=
  match args.find? (fun arg =>
      hasDangerousCommandChars arg || hasDangerousPathChars arg || arg.utf8ByteSize > 4096) with
  | some arg =>
    if hasDangerousCommandChars arg then
      .error ("argument contains dangerous characters: " ++ arg)
    else if hasDangerousPathChars arg then
      .error ("argument contains path traversal sequences: " ++ arg)
    else
      .error ("argument too long: " ++ arg)
  | none => .ok ()

/-- A spawned external process: command name, argument vector and
working directory, as passed to `exec.CommandContext` + `cmd.Run`. -/
structure ExecCall where
  name : String
  args : List String
  dir : String
deriving DecidableEq

/-- Go `safeExecuteCommand` (config.go lines 169-201). The subprocess
actually spawned is recorded in the first component; `runFails` is the
oracle for `cmd.Run` returning an error (timeout or nonzero exit).
A process is spawned exactly when the recorded list is nonempty. -/
def safeExecuteCommand (runFails : Bool) (cmdName : String) (args : List String)
    (config : SecurityConfig) : List ExecCall × Except String Unit :=
  match validateCommandName cmdName config with
  | .error e => ([], .error ("invalid command: " ++ e))
  | .ok _ =>
    match validateCommandArgs args with
    | .error e => ([], .error ("invalid arguments: " ++ e))
    | .ok _ =>
      let call : ExecCall := { name := cmdName, args := args, dir := config.AllowedTempDir }
      if runFails then ([call], .error "command execution failed")
      else ([call], .ok ())

/-! ## filepath.Clean and validateFilePath -/

/-- One step of lexical path cleaning: push a path element onto the
stack of already-cleaned elements (held in reverse). A ".." pops a
non-".." top; at the root it is dropped when the path is rooted and
kept otherwise. This is the element-stack reading of Go
`filepath.Clean` (Unix rules). -/
def cleanStep (rooted : Bool) (acc : List String) (c : String) : List String :=
  if c = ".." then
    match acc with
    | top :: rest => if top = ".." then c :: acc else rest
    | [] => if rooted then [] else [c]
  else c :: acc

/-- Go `filepath.Clean` on a Unix host: split on the separator, drop
empty and "." elements, resolve ".." lexically, and rebuild. -/
def filepathClean (path : String) : String :=
  if path = "" then "."
  else
    let rooted := path.startsWith "/"
    let comps := (path.splitOn "/").filter (fun c => !(c = "" || c = "."))
    let stack := comps.foldl (cleanStep rooted) []
    let body := String.intercalate "/" stack.reverse
    if rooted then
      if body = "" then "/" else "/" ++ body
    else
      if body = "" then "." else body

/-- Go `filepath.IsAbs` on a Unix host. -/
def filepathIsAbs (path : String) : Bool :=
  path.startsWith "/"

/-- The rejection condition of `validateFilePath`, applied to the
cleaned path: a ".." substring, an absolute path, the dangerous
traversal pattern, or a length above 260 bytes. -/
def pathCheckFailCond (cleanPath : String) : Bool :=
  goStringsContains cleanPath ".." || filepathIsAbs cleanPath ||
    hasDangerousPathChars cleanPath || cleanPath.utf8ByteSize > 260

/-- Go `validateFilePath` (config.go lines 203-230): clean the path,
then run every check on the cleaned form, returning the cleaned path on
success. The `config` parameter is accepted but unused, as in the
source. -/
def validateFilePath (filePath : String) (_config : SecurityConfig) : Except String String :=
  let cleanPath := filepathClean filePath
  if goStringsContains cleanPath ".." then
    .error ("path traversal detected: " ++ filePath)
  else if filepathIsAbs cleanPath then
    .error ("absolute paths not allowed: " ++ filePath)
  else if hasDangerousPathChars cleanPath then
    .error ("path contains dangerous characters: " ++ filePath)
  else if cleanPath.utf8ByteSize > 260 then
    .error ("path too long: " ++ filePath)
  else
    .ok cleanPath

/-! ## validateFileExtension / extractExt -/

/-- Go `filepath.Ext`: the suffix of the last element beginning at its
final dot, or the empty string when the last element has no dot. -/
def filepathExt (path : String) : String :=
  let revLast := path.toList.reverse.takeWhile (fun c => c ≠ '/')
  let revExt := revLast.takeWhile (fun c => c ≠ '.')
  if revExt.length = revLast.length then ""
  else String.mk ('.' :: revExt.reverse)

/-- Go `validateFileExtension` (config.go lines 232-245): the lowercased
extension must be one of the nine entries of `AllowedImageExts`. -/
def validateFileExtension (filePath : String) : Except String Unit :=
  let ext := (filepathExt filePath).toLower
  let allowedExts := AllowedImageExts.splitOn ","
  if allowedExts.contains ext then .ok ()
  else .error ("file extension not allowed: " ++ ext)

/-- Go `extractExt` (config.go lines 646-649): the lowercased suffix
from the last dot of the whole name. The Go code indexes with
`strings.LastIndex` and panics when there is no dot; that partial case
is `none` here. -/
def extractExt (filename : String) : Option String :=
  let revName := filename.toList.reverse
  let revExt := revName.takeWhile (fun c => c ≠ '.')
  if revExt.length = revName.length then none
  else some (String.mk ('.' :: revExt.reverse)).toLower

/-- Go `validateFileSize` (config.go lines 247-259), with the `os.Stat`
result supplied as an oracle: `none` means the stat itself failed. -/
def validateFileSize (statSize : Option Nat) (maxSize : Nat) : Except String Unit :=
  match statSize with
  | none => .error "failed to get file info"
  | some s => if s > maxSize then .error "file too large" else .ok ()

/-! ## Resource lifecycle: secureCreateTempFile / secureCleanup -/

/-- A file system is the list of existing files with their permission
bits (only existence and mode are relevant to the modelled code). -/
abbrev FileSys : Type := List (String × Nat)

/-- Permission lookup: the mode of the first entry at `p`, if any. -/
def lookupFile (fs : FileSys) (p : String) : Option Nat :=
  (List.find? (fun e => e.1 = p) fs).map (fun e => e.2)

/-- Go `os.Remove`: deletes the file; reports an is-not-exist error when
the path is absent. Other failure modes (permissions) are outside the
lexical model. -/
def osRemove (fs : FileSys) (path : String) : FileSys × Bool :=
  if (List.any fs (fun e => e.1 = path)) then
    (List.filter (fun e => !(e.1 = path)) fs, false)
  else
    (fs, true)

/-- Go `os.Chmod` via `File.Chmod`: sets the mode of every entry at the
path. -/
def osChmod (fs : FileSys) (path : String) (mode : Nat) : FileSys :=
  List.map (fun e => if e.1 = path then (e.1, mode) else e) fs

/-- Go `secureCreateTempFile` (config.go lines 261-278): `os.CreateTemp`
creates the fresh file `name` with owner-only mode 0600 and the
subsequent `Chmod 0600` keeps it owner-only. Creation failure is an
I/O condition outside the model. The returned string is the handle's
concrete path. -/
def secureCreateTempFile (fs : FileSys) (name : String) : FileSys × String :=
  let fs1 := fs ++ [(name, 384)]
  (osChmod fs1 name 384, name)

/-- Go `secureCleanup` (config.go lines 280-291): with `keepTemp` set it
does nothing; otherwise it removes the file, treating an is-not-exist
error as success. -/
def secureCleanup (fs : FileSys) (filePath : String) (keepTemp : Bool) :
    FileSys × Except String Unit :=
  if keepTemp then (fs, .ok ())
  else
    let r := osRemove fs filePath
    (r.1, .ok ())

/-! ## Adaptive encoder data model -/

/-- A decoded raster: only the dimensions are relevant to the resize and
budget logic (pixel content is abstracted by the encoder oracle). -/
structure Img where
  width : Nat
  height : Nat
deriving DecidableEq

/-- Pipeline events, recording the order of decode and (successful)
encode operations performed by `ProcessImage`. -/
inductive Ev where
  | decode
  | encode (img : Img)
deriving DecidableEq

/-- Go `ProcessImageOptions`. -/
structure ProcessImageOptions where
  MaxSizeBytes : Int
  MaxWidth : Int
  MaxHeight : Int
  Quality : Int
  OutputFormat : String
  TempDir : String
deriving DecidableEq

/-- Go `DefaultProcessImageOptions()`. -/
def DefaultProcessImageOptions : ProcessImageOptions :=
  { MaxSizeBytes := 7 * 1024 * 1024
    MaxWidth := 0
    MaxHeight := 0
    Quality := 85
    OutputFormat := "png"
    TempDir := "" }

/-- The option-defaulting prelude of `ProcessImage` (config.go lines
717-729). -/
def setDefaultOptions (options : ProcessImageOptions) : ProcessImageOptions :=
  let o1 := if options.MaxSizeBytes ≤ 0 then
    { options with MaxSizeBytes := DefaultProcessImageOptions.MaxSizeBytes } else options
  let o2 := if o1.Quality ≤ 0 then { o1 with Quality := DefaultProcessImageOptions.Quality } else o1
  let o3 := if o2.OutputFormat = "" then
    { o2 with OutputFormat := DefaultProcessImageOptions.OutputFormat } else o2
  if o3.TempDir = "" then { o3 with TempDir := osTempDir } else o3

/-- Go `encodeImageWithCompression` (config.go lines 450-474).
`enc img` is the oracle for the result of the standard-library
jpeg/png encoder on the resize of the source raster to the dimensions
of `img`: the byte length of the produced bytes on success, or the
encoder error that the Go code propagates through its `if err != nil`
branches — notably `png.Encode` rejects the empty 0x0 image. Only the
two supported formats encode; any other format is a validation
error. -/
def encodeImageWithCompression (enc : Img → Except String Nat) (img : Img)
    (options : ProcessImageOptions) : Except String (Nat × String) :=
  if options.OutputFormat.toLower = "jpeg" then
    match enc img with
    | .error e => .error e
    | .ok len => .ok (len, ".jpg")
  else if options.OutputFormat.toLower = "png" then
    match enc img with
    | .error e => .error e
    | .ok len => .ok (len, ".png")
  else .error ("unsupported output format: " ++ options.OutputFormat)

/-- Go `calculateScaleFactor` (config.go lines 477-488). Note the
thresholds are `8*1024*1024`, `4*1024*1024`, `2*1024*1024` (binary
mega), although the comments in the source speak of 8, 4 and 2 million
pixels. The float constants 0.6, 0.75, 0.85 are the exact rationals
used here. -/
def calculateScaleFactor (pixels : Int) : Rat :=
  if pixels ≥ 8 * 1024 * 1024 then 3 / 5
  else if pixels ≥ 4 * 1024 * 1024 then 3 / 4
  else if pixels ≥ 2 * 1024 * 1024 then 17 / 20
  else 1

/-- Go `calculateUserScaleFactor` (config.go lines 491-516). -/
def calculateUserScaleFactor (width height maxWidth maxHeight : Int) : Rat :=
  if maxWidth ≤ 0 ∧ maxHeight ≤ 0 then 1
  else
    let scaleX : Rat := if 0 < maxWidth ∧ maxWidth < width then (maxWidth : Rat) / (width : Rat) else 1
    let scaleY : Rat := if 0 < maxHeight ∧ maxHeight < height then (maxHeight : Rat) / (height : Rat) else 1
    let result := min scaleX scaleY
    if 1 < result then 1 else result

/-- `imaging.Resize` (github.com/disintegration/imaging) dimension
semantics: negative or doubly-zero requests and empty sources give the
empty image; a single zero dimension is recomputed from the other one
to preserve the aspect ratio, rounded half-up, with a 1-pixel minimum
(when one requested dimension is zero the other is nonzero, so the two
recomputation branches are spelled with the known dimension inline). -/
def imagingResize (img : Img) (width height : Int) : Img :=
  if width < 0 ∨ height < 0 then { width := 0, height := 0 }
  else if width = 0 ∧ height = 0 then { width := 0, height := 0 }
  else if img.width = 0 ∨ img.height = 0 then { width := 0, height := 0 }
  else if width = 0 then
    { width := (max 1 ⌊(height : Rat) * (img.width : Rat) / (img.height : Rat) + 1 / 2⌋).toNat,
      height := height.toNat }
  else if height = 0 then
    { width := width.toNat,
      height := (max 1 ⌊(width : Rat) * (img.height : Rat) / (img.width : Rat) + 1 / 2⌋).toNat }
  else { width := width.toNat, height := height.toNat }

/-- The effective scale factor of `ProcessImage` step 2 (config.go lines
754-763): the pixel-count factor, lowered to the user clamp factor when
the latter is smaller. -/
def effectiveScaleFactor (img : Img) (options : ProcessImageOptions) : Rat :=
  let scaleFactor := calculateScaleFactor ((img.width : Int) * (img.height : Int))
  if 0 < options.MaxWidth ∨ 0 < options.MaxHeight then
    let u := calculateUserScaleFactor (img.width : Int) (img.height : Int)
      options.MaxWidth options.MaxHeight
    if u < scaleFactor then u else scaleFactor
  else scaleFactor

/-- One iteration's scaled image: the source raster resized to
`int(float64(originalWidth) * targetFactor)` by
`int(float64(originalHeight) * targetFactor)` (Go `int` truncation of a
nonnegative product is the floor). -/
def loopScaledImg (img : Img) (targetFactor : Rat) : Img :=
  imagingResize img ⌊(img.width : Rat) * targetFactor⌋ ⌊(img.height : Rat) * targetFactor⌋

/-- The resize/re-encode loop of `ProcessImage` (config.go lines
766-799), with an explicit fuel parameter standing for the unbounded
Go `for` loop. The loop multiplies the running factor by at most 4/5
per round and exits below the 1/10 floor, so fuel 12 is never exhausted
from the entry state (see `processLoop_ok`); exhaustion is a
distinguishable error so that this is a theorem, not an assumption. -/
def processLoop (enc : Img → Except String Nat) (img : Img) (options : ProcessImageOptions)
    (scaleFactor : Rat) (currentFactor : Rat) (last : Nat × String) (lastImg : Img) :
    Nat → List Ev × Except String (Nat × String × Img)
  | 0 => ([], .error "loop fuel exhausted")
  | fuel + 1 =>
    if (1 : Rat) / 10 ≤ currentFactor then
      let targetFactor := if 1 < currentFactor * scaleFactor then 1
        else currentFactor * scaleFactor
      let scaledImg := loopScaledImg img targetFactor
      match encodeImageWithCompression enc scaledImg options with
      | .error e => ([], .error ("failed to encode scaled image: " ++ e))
      | .ok (len, ext) =>
        if (len : Int) ≤ options.MaxSizeBytes then
          ([Ev.encode scaledImg], .ok (len, ext, scaledImg))
        else
          let lr := processLoop enc img options scaleFactor (targetFactor * (4 / 5))
            (len, ext) scaledImg fuel
          (Ev.encode scaledImg :: lr.1, lr.2)
    else
      ([], .ok (last.1, last.2, lastImg))

/-- Go `ProcessImage` (config.go lines 716-800). `decodeResult` is the
oracle for what `decodeImage` returns on the given input; `enc` is
the encoder oracle (byte length or encoder error per candidate). The
result carries the event trace, and the
dimensions of the image whose encoding is returned. -/
def ProcessImage (decodeResult : Except String Img) (enc : Img → Except String Nat)
    (options0 : ProcessImageOptions) : List Ev × Except String (Nat × String × Img) :=
  let options := setDefaultOptions options0
  match decodeResult with
  | .error e => ([Ev.decode], .error ("failed to decode image: " ++ e))
  | .ok img =>
    match encodeImageWithCompression enc img options with
    | .error e => ([Ev.decode], .error ("failed to encode image: " ++ e))
    | .ok (len, ext) =>
      if (len : Int) ≤ options.MaxSizeBytes then
        ([Ev.decode, Ev.encode img], .ok (len, ext, img))
      else
        let lr := processLoop enc img options (effectiveScaleFactor img options) 1
          (len, ext) img 12
        (Ev.decode :: Ev.encode img :: lr.1, lr.2)

/-! ## RAW converter (darktable-cli) -/

/-- Go `ARWProcessOptions` (the unused float options are rationals). -/
structure ARWProcessOptions where
  Bitness : Int
  Compression : Int
  ColorSpace : String
  WhiteBalance : String
  Exposure : Rat
  Contrast : Rat
  Saturation : Rat
  TempDir : String
  KeepTemp : Bool
deriving DecidableEq

/-- Go `DefaultARWProcessOptions()`. -/
def DefaultARWProcessOptions : ARWProcessOptions :=
  { Bitness := 16
    Compression := 6
    ColorSpace := "sRGB"
    WhiteBalance := "camera"
    Exposure := 0
    Contrast := 0
    Saturation := 0
    TempDir := ""
    KeepTemp := false }

/-- Error taxonomy of the package: SecurityError, InputValidationError,
plain `fmt.Errorf` messages, and wrapping with context. -/
inductive ImgError where
  | securityError (typ msg cause : String)
  | inputValidationError (field value reason : String)
  | msg (s : String)
  | wrapped (context : String) (cause : ImgError)
deriving DecidableEq

/-- The innermost error of a chain of wrappings (what Go `errors.As`
unwraps to). -/
def ImgError.rootCause : ImgError → ImgError
  | .wrapped _ cause => cause.rootCause
  | e => e

/-- The static color-space mapping of `buildDarktableArgs`. -/
def colorSpaceMap (cs : String) : Option String :=
  if cs = "sRGB" then some "2"
  else if cs = "AdobeRGB" then some "1"
  else if cs = "ProPhoto" then some "3"
  else none

/-- The static white-balance mapping of `buildDarktableArgs`. -/
def wbMap (wb : String) : Option String :=
  if wb = "camera" then some "camera"
  else if wb = "auto" then some "auto"
  else if wb = "manual" then some "manual"
  else none

/-- Go `buildDarktableArgs` (config.go lines 526-627): validate both
paths, then bitness, compression, color space and white balance in that
order, and assemble the fixed-shape argument vector. -/
def buildDarktableArgs (inputPath outputPath : String) (options : ARWProcessOptions) :
    Except ImgError (List String) :=
  match validateFilePath inputPath DefaultSecurityConfig with
  | .error e => .error (.securityError "path_validation" "invalid input path" e)
  | .ok _ =>
  match validateFilePath outputPath DefaultSecurityConfig with
  | .error e => .error (.securityError "path_validation" "invalid output path" e)
  | .ok _ =>
  if ¬(options.Bitness = 8 ∨ options.Bitness = 16) then
    .error (.inputValidationError "bitness" (toString options.Bitness) "must be 8 or 16")
  else if options.Compression < 0 ∨ options.Compression > 9 then
    .error (.inputValidationError "compression" (toString options.Compression)
      "must be between 0 and 9")
  else
    match colorSpaceMap options.ColorSpace with
    | none => .error (.inputValidationError "colorspace" options.ColorSpace
        "must be sRGB, AdobeRGB, or ProPhoto")
    | some colorSpaceID =>
      match wbMap options.WhiteBalance with
      | none => .error (.inputValidationError "whitebalance" options.WhiteBalance
          "must be camera, auto, or manual")
      | some wbMode =>
        .ok ([inputPath, outputPath]
          ++ ["--core", "--conf", "plugins/imageio/format/png/bpp=" ++ toString options.Bitness]
          ++ ["--core", "--conf",
              "plugins/imageio/format/png/compression=" ++ toString options.Compression]
          ++ ["--core", "--conf", "plugins/lighttable/export/colorspace=" ++ colorSpaceID]
          ++ ["--core", "--conf", "plugins/lighttable/export/wb=" ++ wbMode]
          ++ ["--hq", "--upscale"]
          ++ ["--conf", "plugins/lighttable/export/overwrite=true"])

/-- Go `isDarktableAvailable` with the `exec.LookPath` result as an
oracle. -/
def isDarktableAvailable (onPath : Bool) : Bool :=
  onPath && DefaultSecurityConfig.AllowedCommands.contains "darktable-cli"

/-- Go `safeExecuteDarktableCommand` (config.go lines 629-644): build
the argument vector and hand it to `safeExecuteCommand` under the
default policy. Spawned subprocesses are recorded in the first
component. -/
def safeExecuteDarktableCommand (runFails : Bool) (inputPath outputPath : String)
    (options : ARWProcessOptions) : List ExecCall × Except ImgError Unit :=
  match buildDarktableArgs inputPath outputPath options with
  | .error e => ([], .error (.wrapped "failed to build command args" e))
  | .ok args =>
    let r := safeExecuteCommand runFails "darktable-cli" args DefaultSecurityConfig
    (r.1, match r.2 with
      | .ok _ => .ok ()
      | .error e => .error (.msg e))

/-- The environment oracles of `ProcessARWToPNG`: the `os.Stat` size of
the input (`none`: stat fails / file absent), the `exec.LookPath`
probe, the fresh name chosen by `os.CreateTemp` in the allowed temp
directory, whether the subprocess run fails, and the byte length of the
PNG the tool writes. -/
structure ARWEnv where
  statSize : Option Nat
  darktableOnPath : Bool
  tempName : String
  toolFails : Bool
  outputBytes : Nat
deriving DecidableEq

/-- Go `ProcessARWToPNG` (config.go lines 869-940): defaulting, path /
extension / size validation, existence and availability checks, temp
output creation, sandboxed tool execution and output read-back. The
first component records every subprocess spawned during the call; on
success the byte length of the returned PNG is produced. Cleanup of the
temp output (`secureCleanup`, honouring `KeepTemp`) acts on the file
system and is modelled separately. -/
def ProcessARWToPNG (env : ARWEnv) (arwPath : String) (options0 : ARWProcessOptions) :
    List ExecCall × Except ImgError Nat :=
  let options := if options0.TempDir = "" then { options0 with TempDir := osTempDir } else options0
  let config := { DefaultSecurityConfig with AllowedTempDir := options.TempDir }
  match validateFilePath arwPath config with
  | .error e => ([], .error (.securityError "path_validation" "invalid ARW file path" e))
  | .ok cleanPath =>
  match validateFileExtension cleanPath with
  | .error e => ([], .error (.securityError "extension_validation" "invalid file extension for ARW" e))
  | .ok _ =>
  match validateFileSize env.statSize MaxFileSize with
  | .error e => ([], .error (.securityError "size_validation" "ARW file too large" e))
  | .ok _ =>
  if env.statSize.isNone then
    ([], .error (.msg ("ARW file does not exist: " ++ cleanPath)))
  else if ¬(isDarktableAvailable env.darktableOnPath) then
    ([], .error (.msg "darktable-cli is not available. Please install darktable-cli"))
  else
    let tempOutputPath := env.tempName
    let r := safeExecuteDarktableCommand env.toolFails cleanPath tempOutputPath options
    match r.2 with
    | .error e => (r.1, .error (.wrapped "darktable-cli execution failed" e))
    | .ok _ =>
      if env.outputBytes > MaxFileSize then
        (r.1, .error (.securityError "size_validation" "output PNG file too large" ""))
      else
        (r.1, .ok env.outputBytes)

/-- The strict extension restriction inside Go `ValidateARWFile`
(config.go lines 976-981): after the general validations, the
extension extracted with `extractExt` must be one of .arw, .srf, .sr2.
`ProcessARWToPNG` performs no such check and never calls
`ValidateARWFile`. -/
def validateARWStrictExt (cleanPath : String) : Except String Unit :=
  match extractExt cleanPath with
  | some e =>
    if e = ".arw" ∨ e = ".srf" ∨ e = ".sr2" then .ok ()
    else .error ("unsupported file extension: " ++ e)
  | none => .error "no extension"

/-! ## Dimension lemmas for the adaptive encoder -/

lemma floor_mul_le_self (n : Nat) (t : Rat) (ht : t ≤ 1) :
    ⌊(n : Rat) * t⌋ ≤ (n : Int) := by
  have h1 : (n : Rat) * t ≤ (n : Rat) := mul_le_of_le_one_right (by positivity) ht
  calc ⌊(n : Rat) * t⌋ ≤ ⌊(n : Rat)⌋ := Int.floor_le_floor h1
    _ = (n : Int) := Int.floor_natCast n

lemma aspect_floor_le (known : Int) (a b : Nat)
    (hk : known ≤ (b : Int)) (hb : 0 < b) (ha : 0 < a) :
    max 1 ⌊(known : Rat) * (a : Rat) / (b : Rat) + 1 / 2⌋ ≤ (a : Int) := by
  have hbR : (0 : Rat) < (b : Rat) := by exact_mod_cast hb
  have hx : (known : Rat) * (a : Rat) / (b : Rat) ≤ (a : Rat) := by
    rw [div_le_iff₀ hbR]
    have hkR : (known : Rat) ≤ (b : Rat) := by exact_mod_cast hk
    calc (known : Rat) * (a : Rat) ≤ (b : Rat) * (a : Rat) :=
          mul_le_mul_of_nonneg_right hkR (by positivity)
      _ = (a : Rat) * (b : Rat) := mul_comm _ _
  have hfl : ⌊(known : Rat) * (a : Rat) / (b : Rat) + 1 / 2⌋ ≤ (a : Int) := by
    rw [Int.floor_le_iff]
    push_cast
    linarith
  have h1a : (1 : Int) ≤ (a : Int) := by exact_mod_cast ha
  exact max_le h1a hfl

lemma imagingResize_le (img : Img) (w h : Int)
    (hw : w ≤ (img.width : Int)) (hh : h ≤ (img.height : Int)) :
    (imagingResize img w h).width ≤ img.width ∧ (imagingResize img w h).height ≤ img.height := by
  unfold imagingResize
  split
  · exact ⟨Nat.zero_le _, Nat.zero_le _⟩
  split
  · exact ⟨Nat.zero_le _, Nat.zero_le _⟩
  split
  · exact ⟨Nat.zero_le _, Nat.zero_le _⟩
  rename_i hneg hzz hsrc
  push_neg at hneg hsrc
  split
  · rename_i hwz
    refine ⟨Int.toNat_le.mpr ?_, Int.toNat_le.mpr hh⟩
    exact aspect_floor_le h img.width img.height hh
      (Nat.pos_of_ne_zero hsrc.2) (Nat.pos_of_ne_zero hsrc.1)
  split
  · rename_i hwz hhz
    refine ⟨Int.toNat_le.mpr hw, Int.toNat_le.mpr ?_⟩
    exact aspect_floor_le w img.height img.width hw
      (Nat.pos_of_ne_zero hsrc.1) (Nat.pos_of_ne_zero hsrc.2)
  · exact ⟨Int.toNat_le.mpr hw, Int.toNat_le.mpr hh⟩

lemma capped_target_le_one (t0 : Rat) : (if 1 < t0 then 1 else t0) ≤ 1 := by
  split
  · exact le_refl 1
  · exact le_of_not_lt (by assumption)

lemma loopScaledImg_le (img : Img) (t : Rat) (ht : t ≤ 1) :
    (loopScaledImg img t).width ≤ img.width ∧ (loopScaledImg img t).height ≤ img.height := by
  unfold loopScaledImg
  exact imagingResize_le img _ _ (floor_mul_le_self img.width t ht)
    (floor_mul_le_self img.height t ht)

lemma processLoop_dims (enc : Img → Except String Nat) (img : Img) (options : ProcessImageOptions)
    (scale : Rat) :
    ∀ (fuel : Nat) (current : Rat) (last : Nat × String) (lastImg : Img),
      lastImg.width ≤ img.width → lastImg.height ≤ img.height →
      ∀ (len : Nat) (ext : String) (resImg : Img),
        (processLoop enc img options scale current last lastImg fuel).2 =
          .ok (len, ext, resImg) →
        resImg.width ≤ img.width ∧ resImg.height ≤ img.height := by
  intro fuel
  induction fuel with
  | zero =>
    intro current last lastImg hlw hlh len ext resImg h
    simp [processLoop] at h
  | succ n ih =>
    intro current last lastImg hlw hlh len ext resImg h
    simp only [processLoop] at h
    by_cases hc : (1 : Rat) / 10 ≤ current
    · rw [if_pos hc] at h
      have hdims := loopScaledImg_le img
        (if 1 < current * scale then 1 else current * scale) (capped_target_le_one _)
      rcases henc : encodeImageWithCompression enc
          (loopScaledImg img (if 1 < current * scale then 1 else current * scale)) options
        with e | p
      · rw [henc] at h
        simp at h
      · rw [henc] at h
        rcases p with ⟨len0, ext0⟩
        simp only [] at h
        by_cases hb : (len0 : Int) ≤ options.MaxSizeBytes
        · rw [if_pos hb] at h
          simp at h
          rw [← h.2.2]
          exact hdims
        · rw [if_neg hb] at h
          exact ih _ _ _ hdims.1 hdims.2 _ _ _ h
    · rw [if_neg hc] at h
      simp at h
      rw [← h.2.2]
      exact ⟨hlw, hlh⟩

/-- C3: for every decoded raster and every set of encoding constraints,
the image whose encoding `ProcessImage` returns never exceeds the
original raster in either axis: the scale target is capped at 1.0 on
every iteration, so the encoder never upscales. -/
theorem c3_no_upscale (img0 : Img) (enc : Img → Except String Nat) (options0 : ProcessImageOptions)
    (len : Nat) (ext : String) (resImg : Img)
    (h : (ProcessImage (Except.ok img0) enc options0).2 = .ok (len, ext, resImg)) :
    resImg.width ≤ img0.width ∧ resImg.height ≤ img0.height := by
  simp only [ProcessImage] at h
  rcases henc : encodeImageWithCompression enc img0 (setDefaultOptions options0)
    with e | p
  · rw [henc] at h
    simp at h
  · rw [henc] at h
    rcases p with ⟨len0, ext0⟩
    simp only [] at h
    by_cases hb : (len0 : Int) ≤ (setDefaultOptions options0).MaxSizeBytes
    · rw [if_pos hb] at h
      simp at h
      rw [← h.2.2]
      exact ⟨le_refl _, le_refl _⟩
    · rw [if_neg hb] at h
      exact processLoop_dims enc img0 (setDefaultOptions options0) _ _ _ _ _
        (le_refl _) (le_refl _) _ _ _ h

/-- Witness for C3 at a concrete run: a 100 by 100 raster processed
with a tight budget returns dimensions bounded by 100 in each axis. -/
theorem c3_no_upscale_witness :
    (Img.mk 10 10).width ≤ (Img.mk 100 100).width ∧
      (Img.mk 10 10).height ≤ (Img.mk 100 100).height :=
  c3_no_upscale (Img.mk 100 100) (fun _ => Except.ok 10)
    { MaxSizeBytes := 5, MaxWidth := 0, MaxHeight := 0, Quality := 85,
      OutputFormat := "png", TempDir := "x" } 10 ".png" (Img.mk 10 10)
    (by with_unfolding_all rfl)

/-! ## Scale-factor bounds and loop termination -/

lemma encodeImageWithCompression_ok (enc : Img → Except String Nat)
    (options : ProcessImageOptions)
    (hfmt : options.OutputFormat.toLower = "jpeg" ∨ options.OutputFormat.toLower = "png")
    (im : Img) (n : Nat) (hn : enc im = .ok n) :
    encodeImageWithCompression enc im options =
      .ok (n, if options.OutputFormat.toLower = "jpeg" then ".jpg" else ".png") := by
  rcases hfmt with h | h <;> simp [encodeImageWithCompression, h, hn]

lemma calculateScaleFactor_nonneg (p : Int) : 0 ≤ calculateScaleFactor p := by
  unfold calculateScaleFactor
  split
  · norm_num
  split
  · norm_num
  split
  · norm_num
  · norm_num

lemma calculateScaleFactor_le_one (p : Int) : calculateScaleFactor p ≤ 1 := by
  unfold calculateScaleFactor
  split
  · norm_num
  split
  · norm_num
  split
  · norm_num
  · norm_num

lemma scaleIf_nonneg (m v : Int) :
    (0 : Rat) ≤ (if 0 < m ∧ m < v then (m : Rat) / (v : Rat) else 1) := by
  split
  · rename_i hcond
    apply div_nonneg
    · exact_mod_cast le_of_lt hcond.1
    · exact_mod_cast le_of_lt (lt_trans hcond.1 hcond.2)
  · norm_num

lemma calculateUserScaleFactor_nonneg (w h mw mh : Int) :
    0 ≤ calculateUserScaleFactor w h mw mh := by
  unfold calculateUserScaleFactor
  split
  · norm_num
  · dsimp only
    generalize hgx : (if 0 < mw ∧ mw < w then (mw : Rat) / (w : Rat) else 1) = sx
    generalize hgy : (if 0 < mh ∧ mh < h then (mh : Rat) / (h : Rat) else 1) = sy
    have hx : (0 : Rat) ≤ sx := hgx ▸ scaleIf_nonneg mw w
    have hy : (0 : Rat) ≤ sy := hgy ▸ scaleIf_nonneg mh h
    split
    · norm_num
    · exact le_min hx hy

lemma calculateUserScaleFactor_le_one (w h mw mh : Int) :
    calculateUserScaleFactor w h mw mh ≤ 1 := by
  unfold calculateUserScaleFactor
  split
  · norm_num
  · dsimp only
    generalize hgx : (if 0 < mw ∧ mw < w then (mw : Rat) / (w : Rat) else 1) = sx
    generalize hgy : (if 0 < mh ∧ mh < h then (mh : Rat) / (h : Rat) else 1) = sy
    split
    · norm_num
    · rename_i hnot
      exact le_of_not_lt hnot

lemma effectiveScaleFactor_nonneg (img : Img) (options : ProcessImageOptions) :
    0 ≤ effectiveScaleFactor img options := by
  unfold effectiveScaleFactor
  split
  · dsimp only
    split
    · exact calculateUserScaleFactor_nonneg _ _ _ _
    · exact calculateScaleFactor_nonneg _
  · exact calculateScaleFactor_nonneg _

lemma effectiveScaleFactor_le_one (img : Img) (options : ProcessImageOptions) :
    effectiveScaleFactor img options ≤ 1 := by
  unfold effectiveScaleFactor
  split
  · dsimp only
    split
    · exact calculateUserScaleFactor_le_one _ _ _ _
    · exact calculateScaleFactor_le_one _
  · exact calculateScaleFactor_le_one _

lemma target_le_current (current scale : Rat) (hcur : 0 ≤ current) (hs1 : scale ≤ 1) :
    (if 1 < current * scale then 1 else current * scale) ≤ current := by
  have hle : current * scale ≤ current := mul_le_of_le_one_right hcur hs1
  split
  · rename_i hgt
    linarith
  · exact hle

lemma processLoop_ok (enc : Img → Except String Nat) (img : Img) (options : ProcessImageOptions)
    (scale : Rat) (hs1 : scale ≤ 1)
    (hfmt : options.OutputFormat.toLower = "jpeg" ∨ options.OutputFormat.toLower = "png")
    (hencok : ∀ im : Img, ∃ n : Nat, enc im = .ok n) :
    ∀ (f : Nat) (current : Rat) (last : Nat × String) (lastImg : Img),
      current < 1 / 10 * (5 / 4 : Rat) ^ f →
      ∃ r, (processLoop enc img options scale current last lastImg (f + 1)).2 = .ok r ∧
        (processLoop enc img options scale current last lastImg (f + 1)).1.length ≤ f + 1 := by
  intro f
  induction f with
  | zero =>
    intro current last lastImg hcur
    rw [pow_zero, mul_one] at hcur
    have hc : ¬((1 : Rat) / 10 ≤ current) := by linarith
    refine ⟨(last.1, last.2, lastImg), ?_, ?_⟩
    · rw [processLoop, if_neg hc]
    · rw [processLoop, if_neg hc]
      simp
  | succ g ih =>
    intro current last lastImg hcur
    by_cases hc : (1 : Rat) / 10 ≤ current
    · have hcur0 : (0 : Rat) ≤ current := by linarith
      have htarget := target_le_current current scale hcur0 hs1
      obtain ⟨n, hn⟩ := hencok
        (loopScaledImg img (if 1 < current * scale then 1 else current * scale))
      have henc := encodeImageWithCompression_ok enc options hfmt
        (loopScaledImg img (if 1 < current * scale then 1 else current * scale)) n hn
      by_cases hb : ((n : Int) ≤ options.MaxSizeBytes)
      · refine ⟨(n,
          (if options.OutputFormat.toLower = "jpeg" then ".jpg" else ".png"),
          loopScaledImg img (if 1 < current * scale then 1 else current * scale)), ?_, ?_⟩
        · rw [processLoop, if_pos hc]
          dsimp only
          rw [henc]
          dsimp only
          rw [if_pos hb]
        · rw [processLoop, if_pos hc]
          dsimp only
          rw [henc]
          dsimp only
          rw [if_pos hb]
          simp
      · have hnext : (if 1 < current * scale then 1 else current * scale) * (4 / 5) <
            1 / 10 * (5 / 4 : Rat) ^ g := by
          have h1 : (if 1 < current * scale then 1 else current * scale) * (4 / 5) ≤
              current * (4 / 5) :=
            mul_le_mul_of_nonneg_right htarget (by norm_num)
          have h2 : current * (4 / 5) < (1 / 10 * (5 / 4 : Rat) ^ (g + 1)) * (4 / 5) :=
            mul_lt_mul_of_pos_right hcur (by norm_num)
          have h3 : (1 / 10 * (5 / 4 : Rat) ^ (g + 1)) * (4 / 5) =
              1 / 10 * (5 / 4 : Rat) ^ g := by
            rw [pow_succ]; ring
          linarith
        obtain ⟨r, hr, hlen⟩ := ih ((if 1 < current * scale then 1 else current * scale) * (4 / 5))
          (n, if options.OutputFormat.toLower = "jpeg" then ".jpg" else ".png")
          (loopScaledImg img (if 1 < current * scale then 1 else current * scale)) hnext
        refine ⟨r, ?_, ?_⟩
        · rw [processLoop, if_pos hc]
          dsimp only
          rw [henc]
          dsimp only
          rw [if_neg hb]
          exact hr
        · rw [processLoop, if_pos hc]
          dsimp only
          rw [henc]
          dsimp only
          rw [if_neg hb]
          simp only [List.length_cons]
          omega
    · refine ⟨(last.1, last.2, lastImg), ?_, ?_⟩
      · rw [processLoop, if_neg hc]
      · rw [processLoop, if_neg hc]
        simp

lemma setDefaultOptions_OutputFormat (o : ProcessImageOptions) :
    (setDefaultOptions o).OutputFormat = if o.OutputFormat = "" then "png" else o.OutputFormat := by
  unfold setDefaultOptions
  dsimp only
  repeat' split
  all_goals simp_all [DefaultProcessImageOptions]

/-- Counterexample for C4 as stated: the Go encoder can fail on a
shrunk candidate, so the loop does not always return a result with no
error. With the oracle matching Go png.Encode (which rejects the
empty 0x0 image), a 1 by 1 raster against a 5-byte budget reaches the
0x0 candidate at the second iteration (int(1 * 0.8) = 0) and
`ProcessImage` returns the encode error instead of the last
over-budget result. -/
theorem c4_small_raster_encode_error_counterexample :
    (ProcessImage (Except.ok (Img.mk 1 1))
        (fun im => if im.width = 0 ∨ im.height = 0 then
          .error "png: invalid image size: 0x0" else .ok 100)
        { MaxSizeBytes := 5, MaxWidth := 0, MaxHeight := 0, Quality := 85,
          OutputFormat := "png", TempDir := "x" }).2 =
      .error "failed to encode scaled image: png: invalid image size: 0x0" := by
  with_unfolding_all rfl

/-- C4 (amended): for every raster, every encoder oracle that succeeds
on every candidate, and every byte budget — in particular any budget
smaller than what any scale down to the 0.1 multiplier floor can
achieve — `ProcessImage` terminates after a bounded number of
iterations (the running multiplier shrinks by a factor of at most 4/5
each round and the loop exits below 1/10) and returns the last
computed, possibly still over-budget, result with its extension and no
error; when an encode of a shrunk candidate fails, as Go png.Encode
does on the 0x0 candidate of a 1 by 1 raster, the encode error is
returned instead. -/
theorem c4_loop_terminates (img : Img) (enc : Img → Except String Nat)
    (options0 : ProcessImageOptions)
    (hfmt : (setDefaultOptions options0).OutputFormat.toLower = "jpeg" ∨
      (setDefaultOptions options0).OutputFormat.toLower = "png")
    (hencok : ∀ im : Img, ∃ n : Nat, enc im = .ok n) :
    ∃ (len : Nat) (ext : String) (lastImg : Img),
      (ProcessImage (Except.ok img) enc options0).2 = .ok (len, ext, lastImg) ∧
        (ProcessImage (Except.ok img) enc options0).1.length ≤ 14 := by
  obtain ⟨n0, hn0⟩ := hencok img
  have henc0 := encodeImageWithCompression_ok enc (setDefaultOptions options0) hfmt img n0 hn0
  by_cases hb0 : ((n0 : Int) ≤ (setDefaultOptions options0).MaxSizeBytes)
  · refine ⟨n0, (if (setDefaultOptions options0).OutputFormat.toLower = "jpeg"
      then ".jpg" else ".png"), img, ?_, ?_⟩
    · simp only [ProcessImage]
      rw [henc0]
      dsimp only
      rw [if_pos hb0]
    · simp only [ProcessImage]
      rw [henc0]
      dsimp only
      rw [if_pos hb0]
      simp
  · have hsc1 := effectiveScaleFactor_le_one img (setDefaultOptions options0)
    have hcur : (1 : Rat) < 1 / 10 * (5 / 4 : Rat) ^ 11 := by norm_num
    obtain ⟨r, hr, hlen⟩ := processLoop_ok enc img (setDefaultOptions options0)
      (effectiveScaleFactor img (setDefaultOptions options0)) hsc1 hfmt hencok 11 1
      (n0, if (setDefaultOptions options0).OutputFormat.toLower = "jpeg"
        then ".jpg" else ".png") img hcur
    rcases r with ⟨len, ext, lastImg⟩
    refine ⟨len, ext, lastImg, ?_, ?_⟩
    · simp only [ProcessImage]
      rw [henc0]
      dsimp only
      rw [if_neg hb0]
      exact hr
    · simp only [ProcessImage]
      rw [henc0]
      dsimp only
      rw [if_neg hb0]
      simp only [List.length_cons]
      rw [show (12 : Nat) = 11 + 1 from rfl]
      omega

/-- Witness for the amended C4: a 100 by 100 raster whose every
encoding is 10 bytes against a 5-byte budget yields a successful,
bounded run. -/
theorem c4_loop_terminates_witness :
    ∃ (len : Nat) (ext : String) (lastImg : Img),
      (ProcessImage (Except.ok (Img.mk 100 100)) (fun _ => Except.ok 10)
        { MaxSizeBytes := 5, MaxWidth := 0, MaxHeight := 0, Quality := 85,
          OutputFormat := "png", TempDir := "x" }).2 = .ok (len, ext, lastImg) ∧
        (ProcessImage (Except.ok (Img.mk 100 100)) (fun _ => Except.ok 10)
          { MaxSizeBytes := 5, MaxWidth := 0, MaxHeight := 0, Quality := 85,
            OutputFormat := "png", TempDir := "x" }).1.length ≤ 14 :=
  c4_loop_terminates (Img.mk 100 100) (fun _ => Except.ok 10)
    { MaxSizeBytes := 5, MaxWidth := 0, MaxHeight := 0, Quality := 85,
      OutputFormat := "png", TempDir := "x" }
    (Or.inr (by with_unfolding_all decide))
    (fun _ => ⟨10, rfl⟩)

/-- C5: for every raster whose full-resolution encoding already fits
the byte budget, `ProcessImage` returns immediately after the first
encode, at the original dimensions, with no resize iteration. -/
theorem c5_first_encode_fits (img : Img) (enc : Img → Except String Nat) (options0 : ProcessImageOptions)
    (len : Nat) (ext : String)
    (henc : encodeImageWithCompression enc img (setDefaultOptions options0) = .ok (len, ext))
    (hlen : (len : Int) ≤ (setDefaultOptions options0).MaxSizeBytes) :
    ProcessImage (Except.ok img) enc options0 =
      ([Ev.decode, Ev.encode img], .ok (len, ext, img)) := by
  simp only [ProcessImage]
  rw [henc]
  dsimp only
  rw [if_pos hlen]

/-- Witness for C5: a raster whose 10-byte encoding fits a 100-byte
budget is returned untouched after the first encode. -/
theorem c5_first_encode_fits_witness :
    ProcessImage (Except.ok (Img.mk 100 100)) (fun _ => Except.ok 10)
      { MaxSizeBytes := 100, MaxWidth := 0, MaxHeight := 0, Quality := 85,
        OutputFormat := "png", TempDir := "x" } =
      ([Ev.decode, Ev.encode (Img.mk 100 100)], .ok (10, ".png", Img.mk 100 100)) :=
  c5_first_encode_fits (Img.mk 100 100) (fun _ => Except.ok 10)
    { MaxSizeBytes := 100, MaxWidth := 0, MaxHeight := 0, Quality := 85,
      OutputFormat := "png", TempDir := "x" } 10 ".png"
    (by with_unfolding_all rfl) (by with_unfolding_all decide)

/-- C7 (amended): for every requested output format other than the two
supported encodings, `ProcessImage` returns the unsupported-format
validation error, but it is raised at the first encode, after the
input has been decoded, not before decoding begins. -/
theorem c7_format_error_after_decode (img : Img) (enc : Img → Except String Nat)
    (options0 : ProcessImageOptions)
    (h0 : ¬options0.OutputFormat = "")
    (h1 : ¬options0.OutputFormat.toLower = "jpeg")
    (h2 : ¬options0.OutputFormat.toLower = "png") :
    ProcessImage (Except.ok img) enc options0 =
      ([Ev.decode], .error ("failed to encode image: " ++
        ("unsupported output format: " ++ options0.OutputFormat))) := by
  have hfmt : (setDefaultOptions options0).OutputFormat = options0.OutputFormat := by
    rw [setDefaultOptions_OutputFormat, if_neg h0]
  have henc : encodeImageWithCompression enc img (setDefaultOptions options0) =
      .error ("unsupported output format: " ++ options0.OutputFormat) := by
    unfold encodeImageWithCompression
    rw [hfmt, if_neg h1, if_neg h2]
  simp only [ProcessImage]
  rw [henc]

/-- Counterexample for C7 as stated: with output format "gif" the
validation error is indeed returned, but the trace records that the
decode step has already run when it is raised — the error is not
raised before decoding begins. -/
theorem c7_error_not_before_decode_counterexample :
    ProcessImage (Except.ok (Img.mk 10 10)) (fun _ => Except.ok 100)
      { MaxSizeBytes := 5, MaxWidth := 0, MaxHeight := 0, Quality := 85,
        OutputFormat := "gif", TempDir := "x" } =
      ([Ev.decode], .error "failed to encode image: unsupported output format: gif") := by
  with_unfolding_all rfl

/-- Witness for the amended C7 at a different concrete format. -/
theorem c7_format_error_after_decode_witness :
    ProcessImage (Except.ok (Img.mk 3 3)) (fun _ => Except.ok 7)
      { MaxSizeBytes := 5, MaxWidth := 0, MaxHeight := 0, Quality := 85,
        OutputFormat := "webp", TempDir := "x" } =
      ([Ev.decode], .error ("failed to encode image: " ++
        ("unsupported output format: " ++ "webp"))) :=
  c7_format_error_after_decode (Img.mk 3 3) (fun _ => Except.ok 7)
    { MaxSizeBytes := 5, MaxWidth := 0, MaxHeight := 0, Quality := 85,
      OutputFormat := "webp", TempDir := "x" }
    (by decide) (by with_unfolding_all decide) (by with_unfolding_all decide)

/-! ## Security gate theorems -/

/-- C1: no external command is ever executed unless its name is in the
policy allow-list: `safeExecuteCommand` spawns a process only when
`validateCommandName` succeeded, and `validateCommandName` fails for
every name that is not in the allow-list or that contains a shell
metacharacter. -/
theorem c1_allowlist_gate (runFails : Bool) (cmdName : String) (args : List String)
    (config : SecurityConfig) :
    ((safeExecuteCommand runFails cmdName args config).1 ≠ [] →
      validateCommandName cmdName config = .ok ()) ∧
    ((config.AllowedCommands.contains cmdName = false ∨ hasDangerousCommandChars cmdName = true) →
      (∃ e, validateCommandName cmdName config = .error e) ∧
        (safeExecuteCommand runFails cmdName args config).1 = []) := by
  constructor
  · intro hne
    unfold safeExecuteCommand at hne
    rcases hv : validateCommandName cmdName config with e | u
    · rw [hv] at hne
      simp at hne
    · rfl
  · intro hbad
    have hfail : ∃ e, validateCommandName cmdName config = .error e := by
      unfold validateCommandName
      rcases hbad with h | h
      · rw [h]
        simp
      · cases hin : config.AllowedCommands.contains cmdName
        · simp [hin]
        · simp [hin, h]
    obtain ⟨e, he⟩ := hfail
    refine ⟨⟨e, he⟩, ?_⟩
    unfold safeExecuteCommand
    rw [he]

/-- Witness for C1: "rm" is not in the default allow-list, its
validation fails, and no process is recorded for it. -/
theorem c1_allowlist_gate_witness :
    (∃ e, validateCommandName "rm" DefaultSecurityConfig = .error e) ∧
      (safeExecuteCommand false "rm" ["-rf", "/"] DefaultSecurityConfig).1 = [] :=
  (c1_allowlist_gate false "rm" ["-rf", "/"] DefaultSecurityConfig).2
    (Or.inl (by with_unfolding_all decide))

set_option maxHeartbeats 1000000 in
/-- C2: the base scale factor breakpoints are NOT at decimal millions:
the code compares against 8, 4 and 2 times 1024 squared, so a pixel
count of exactly 8,000,000 (for example a 4000 by 2000 raster) selects
0.75 where the spec (and the comments in the source) say 0.60; the
12,000,000-pixel 4000 by 3000 scenario does still select 0.60 and its
first shrunk candidate is 2400 by 1800. -/
theorem c2_scale_breakpoints_eval :
    calculateScaleFactor 8000000 = 3 / 4 ∧
      calculateScaleFactor (8 * 1024 * 1024) = 3 / 5 ∧
      calculateScaleFactor (4000 * 3000) = 3 / 5 ∧
      (ProcessImage (Except.ok (Img.mk 4000 3000))
          (fun im => if im.width < 4000 then Except.ok 1000 else Except.ok 3000000)
          { MaxSizeBytes := 2 * 1024 * 1024, MaxWidth := 0, MaxHeight := 0, Quality := 85,
            OutputFormat := "png", TempDir := "x" }).1 =
        [Ev.decode, Ev.encode (Img.mk 4000 3000), Ev.encode (Img.mk 2400 1800)] := by
  refine ⟨?_, ?_, ?_, ?_⟩
  · with_unfolding_all decide
  · with_unfolding_all decide
  · with_unfolding_all decide
  · with_unfolding_all rfl

/-! ## RAW converter option validation -/

lemma buildDarktableArgs_badOptions (inP outP : String) (opts : ARWProcessOptions)
    (hbad : ¬(opts.Bitness = 8 ∨ opts.Bitness = 16) ∨
      (opts.Compression < 0 ∨ opts.Compression > 9) ∨
      colorSpaceMap opts.ColorSpace = none ∨ wbMap opts.WhiteBalance = none) :
    ∃ e, buildDarktableArgs inP outP opts = .error e := by
  unfold buildDarktableArgs
  split
  · exact ⟨_, rfl⟩
  split
  · exact ⟨_, rfl⟩
  split
  · exact ⟨_, rfl⟩
  split
  · exact ⟨_, rfl⟩
  split
  · exact ⟨_, rfl⟩
  split
  · exact ⟨_, rfl⟩
  · exfalso
    rcases hbad with h | h | h | h <;> simp_all

lemma safeExecuteDarktableCommand_badOptions (runFails : Bool) (inP outP : String)
    (opts : ARWProcessOptions)
    (hbad : ¬(opts.Bitness = 8 ∨ opts.Bitness = 16) ∨
      (opts.Compression < 0 ∨ opts.Compression > 9) ∨
      colorSpaceMap opts.ColorSpace = none ∨ wbMap opts.WhiteBalance = none) :
    ∃ e, safeExecuteDarktableCommand runFails inP outP opts = ([], .error e) := by
  obtain ⟨e, he⟩ := buildDarktableArgs_badOptions inP outP opts hbad
  unfold safeExecuteDarktableCommand
  rw [he]
  exact ⟨_, rfl⟩

/-- C6: calling the RAW conversion with an invalid bitness (anything
other than 8 or 16), an invalid compression level, color space or
white balance returns an error and spawns no subprocess; when both
paths pass validation the error is the `InputValidationError` naming
the offending field ("bitness", "compression", "colorspace" or
"whitebalance", checked in that order). -/
theorem c6_raw_option_validation (env : ARWEnv) (arwPath : String) (opts : ARWProcessOptions) :
    ((¬(opts.Bitness = 8 ∨ opts.Bitness = 16) ∨
        (opts.Compression < 0 ∨ opts.Compression > 9) ∨
        colorSpaceMap opts.ColorSpace = none ∨ wbMap opts.WhiteBalance = none) →
      (ProcessARWToPNG env arwPath opts).1 = [] ∧
        ∃ e, (ProcessARWToPNG env arwPath opts).2 = .error e) ∧
    (∀ inP outP cIn cOut,
      validateFilePath inP DefaultSecurityConfig = .ok cIn →
      validateFilePath outP DefaultSecurityConfig = .ok cOut →
      (¬(opts.Bitness = 8 ∨ opts.Bitness = 16) →
        buildDarktableArgs inP outP opts =
          .error (.inputValidationError "bitness" (toString opts.Bitness) "must be 8 or 16")) ∧
      ((opts.Bitness = 8 ∨ opts.Bitness = 16) →
        (opts.Compression < 0 ∨ opts.Compression > 9) →
        buildDarktableArgs inP outP opts =
          .error (.inputValidationError "compression" (toString opts.Compression)
            "must be between 0 and 9")) ∧
      ((opts.Bitness = 8 ∨ opts.Bitness = 16) →
        ¬(opts.Compression < 0 ∨ opts.Compression > 9) →
        colorSpaceMap opts.ColorSpace = none →
        buildDarktableArgs inP outP opts =
          .error (.inputValidationError "colorspace" opts.ColorSpace
            "must be sRGB, AdobeRGB, or ProPhoto")) ∧
      (∀ csid, (opts.Bitness = 8 ∨ opts.Bitness = 16) →
        ¬(opts.Compression < 0 ∨ opts.Compression > 9) →
        colorSpaceMap opts.ColorSpace = some csid →
        wbMap opts.WhiteBalance = none →
        buildDarktableArgs inP outP opts =
          .error (.inputValidationError "whitebalance" opts.WhiteBalance
            "must be camera, auto, or manual"))) := by
  constructor
  · intro hbad
    unfold ProcessARWToPNG
    dsimp only
    split
    · rename_i h1
      exact ⟨rfl, ⟨_, rfl⟩⟩
    split
    · exact ⟨rfl, ⟨_, rfl⟩⟩
    split
    · exact ⟨rfl, ⟨_, rfl⟩⟩
    split
    · exact ⟨rfl, ⟨_, rfl⟩⟩
    split
    · exact ⟨rfl, ⟨_, rfl⟩⟩
    · have hbad2 : ¬((if opts.TempDir = "" then { opts with TempDir := osTempDir }
          else opts).Bitness = 8 ∨
          (if opts.TempDir = "" then { opts with TempDir := osTempDir } else opts).Bitness = 16) ∨
        ((if opts.TempDir = "" then { opts with TempDir := osTempDir }
          else opts).Compression < 0 ∨
          (if opts.TempDir = "" then { opts with TempDir := osTempDir }
            else opts).Compression > 9) ∨
        colorSpaceMap (if opts.TempDir = "" then { opts with TempDir := osTempDir }
          else opts).ColorSpace = none ∨
        wbMap (if opts.TempDir = "" then { opts with TempDir := osTempDir }
          else opts).WhiteBalance = none := by
        rcases hbad with h | h | h | h
        · left
          split <;> simpa using h
        · right; left
          split <;> simpa using h
        · right; right; left
          split <;> simpa using h
        · right; right; right
          split <;> simpa using h
      obtain ⟨e, he⟩ := safeExecuteDarktableCommand_badOptions env.toolFails _ env.tempName
        _ hbad2
      rw [he]
      exact ⟨rfl, ⟨_, rfl⟩⟩
  · intro inP outP cIn cOut hin hout
    refine ⟨?_, ?_, ?_, ?_⟩
    · intro hbit
      unfold buildDarktableArgs
      rw [hin, hout]
      dsimp only
      rw [if_pos hbit]
    · intro hbit hcomp
      unfold buildDarktableArgs
      rw [hin, hout]
      dsimp only
      rw [if_neg (not_not.mpr hbit), if_pos hcomp]
    · intro hbit hcomp hcs
      unfold buildDarktableArgs
      rw [hin, hout]
      dsimp only
      rw [if_neg (not_not.mpr hbit), if_neg hcomp, hcs]
    · intro csid hbit hcomp hcs hwb
      unfold buildDarktableArgs
      rw [hin, hout]
      dsimp only
      rw [if_neg (not_not.mpr hbit), if_neg hcomp, hcs, hwb]

/-- Witness for C6: bitness 10 on an otherwise valid request yields no
recorded subprocess, an error result, and the bitness validation
error from the argument builder. -/
theorem c6_raw_option_validation_witness :
    (ProcessARWToPNG (ARWEnv.mk (some 100) true "tmpdir/arw_output_1.png" false 10) "photo.arw"
        { DefaultARWProcessOptions with TempDir := "tmpdir", Bitness := 10 }).1 = [] ∧
      (∃ e, (ProcessARWToPNG (ARWEnv.mk (some 100) true "tmpdir/arw_output_1.png" false 10)
          "photo.arw"
          { DefaultARWProcessOptions with TempDir := "tmpdir", Bitness := 10 }).2 = .error e) ∧
      buildDarktableArgs "photo.arw" "tmpdir/arw_output_1.png"
          { DefaultARWProcessOptions with TempDir := "tmpdir", Bitness := 10 } =
        .error (.inputValidationError "bitness" (toString (10 : Int)) "must be 8 or 16") := by
  have h := c6_raw_option_validation (ARWEnv.mk (some 100) true "tmpdir/arw_output_1.png" false 10)
    "photo.arw" { DefaultARWProcessOptions with TempDir := "tmpdir", Bitness := 10 }
  refine ⟨(h.1 (Or.inl (by decide))).1, (h.1 (Or.inl (by decide))).2, ?_⟩
  exact (h.2 "photo.arw" "tmpdir/arw_output_1.png" "photo.arw" "tmpdir/arw_output_1.png"
    (by with_unfolding_all rfl) (by with_unfolding_all rfl)).1 (by decide)

/-! ## Path validation and resource lifecycle theorems -/

/-- C8 (amended): `validateFilePath` normalizes its input and applies
every check to the cleaned form: it fails exactly when the cleaned
path contains a ".." substring, is absolute, matches the dangerous
traversal pattern, or is longer than 260 bytes, and on success it
returns the cleaned path. In particular "a/../../etc/passwd" (cleaned:
"../etc/passwd") is rejected and "images/photo.png" is accepted and
returned cleaned. -/
theorem c8_path_validation (p : String) (cfg : SecurityConfig) :
    (pathCheckFailCond (filepathClean p) = false →
      validateFilePath p cfg = .ok (filepathClean p)) ∧
    (pathCheckFailCond (filepathClean p) = true →
      ∃ e, validateFilePath p cfg = .error e) := by
  constructor
  · intro h
    unfold validateFilePath
    dsimp only
    split
    · exfalso
      unfold pathCheckFailCond at h
      simp_all
    split
    · exfalso
      unfold pathCheckFailCond at h
      simp_all
    split
    · exfalso
      unfold pathCheckFailCond at h
      simp_all
    split
    · exfalso
      unfold pathCheckFailCond at h
      simp_all
    · rfl
  · intro h
    unfold validateFilePath
    dsimp only
    split
    · exact ⟨_, rfl⟩
    split
    · exact ⟨_, rfl⟩
    split
    · exact ⟨_, rfl⟩
    split
    · exact ⟨_, rfl⟩
    · exfalso
      unfold pathCheckFailCond at h
      simp_all

/-- Counterexample for C8 as stated: "a/../b" contains the dangerous
traversal pattern, yet validation accepts it (returning the cleaned
"b"), because every check runs on the cleaned path, not the input. -/
theorem c8_uncleaned_input_counterexample :
    hasDangerousPathChars "a/../b" = true ∧
      validateFilePath "a/../b" DefaultSecurityConfig = .ok "b" := by
  constructor
  · with_unfolding_all decide
  · with_unfolding_all rfl

/-- Witness for the amended C8 on the two specified paths. -/
theorem c8_path_validation_witness :
    validateFilePath "images/photo.png" DefaultSecurityConfig =
        .ok (filepathClean "images/photo.png") ∧
      ∃ e, validateFilePath "a/../../etc/passwd" DefaultSecurityConfig = .error e :=
  ⟨(c8_path_validation "images/photo.png" DefaultSecurityConfig).1
      (by with_unfolding_all decide),
   (c8_path_validation "a/../../etc/passwd" DefaultSecurityConfig).2
      (by with_unfolding_all decide)⟩

lemma secureCleanup_false_eq (fs : FileSys) (p : String) :
    secureCleanup fs p false = ((osRemove fs p).1, .ok ()) := rfl

lemma osRemove_fst_lookup (fs : FileSys) (p : String) :
    lookupFile (osRemove fs p).1 p = none := by
  unfold osRemove
  split
  · dsimp only
    unfold lookupFile
    have hfind : List.find? (fun e => decide (e.1 = p))
        (List.filter (fun e => !decide (e.1 = p)) fs) = none := by
      rw [List.find?_eq_none]
      intro x hx
      have hmem := List.of_mem_filter hx
      simp_all
    rw [hfind]
    rfl
  · rename_i hnot
    dsimp only
    unfold lookupFile
    have hfind : List.find? (fun e => decide (e.1 = p)) fs = none := by
      rw [List.find?_eq_none]
      intro x hx hc
      exact hnot (List.any_eq_true.mpr ⟨x, hx, hc⟩)
    rw [hfind]
    rfl

lemma cleanup_removes (fs : FileSys) (p : String) :
    (secureCleanup fs p false).2 = .ok () ∧
      lookupFile (secureCleanup fs p false).1 p = none := by
  rw [secureCleanup_false_eq]
  exact ⟨rfl, osRemove_fst_lookup fs p⟩

lemma cleanup_of_absent (fs : FileSys) (p : String) (h : lookupFile fs p = none) :
    secureCleanup fs p false = (fs, .ok ()) := by
  rw [secureCleanup_false_eq]
  unfold osRemove
  split
  · rename_i hany
    exfalso
    rw [List.any_eq_true] at hany
    obtain ⟨x, hx, hxp⟩ := hany
    unfold lookupFile at h
    rw [Option.map_eq_none'] at h
    rw [List.find?_eq_none] at h
    exact h x hx hxp
  · rfl

lemma lookupFile_chmod_append (fs : FileSys) (name : String) :
    lookupFile (osChmod (fs ++ [(name, 384)]) name 384) name = some 384 := by
  induction fs with
  | nil =>
    unfold osChmod lookupFile
    simp only [List.nil_append, List.map_cons, List.map_nil, if_pos rfl]
    rw [List.find?_cons_of_pos]
    · rfl
    · simp
  | cons a t ih =>
    by_cases h : a.1 = name
    · unfold osChmod lookupFile
      simp only [List.cons_append, List.map_cons]
      rw [if_pos h]
      rw [List.find?_cons_of_pos]
      · rfl
      · simp [h]
    · unfold osChmod lookupFile at ih ⊢
      simp only [List.cons_append, List.map_cons]
      rw [if_neg h]
      rw [List.find?_cons_of_neg]
      · exact ih
      · simp [h]

/-- C9: temporary-artifact release is idempotent and tolerates an
absent file: after `secureCreateTempFile`, a release with `keepTemp`
unset succeeds and leaves no file at the path, a second release
succeeds and changes nothing, and a release with `keepTemp` set
succeeds, leaves the file system unchanged, and the file persists with
the owner-only mode 0600 (384) set at creation. -/
theorem c9_release_idempotent (fs : FileSys) (name : String) :
    (secureCleanup (secureCreateTempFile fs name).1 (secureCreateTempFile fs name).2 false).2 =
        .ok () ∧
      lookupFile (secureCleanup (secureCreateTempFile fs name).1
          (secureCreateTempFile fs name).2 false).1 (secureCreateTempFile fs name).2 = none ∧
      secureCleanup (secureCleanup (secureCreateTempFile fs name).1
            (secureCreateTempFile fs name).2 false).1 (secureCreateTempFile fs name).2 false =
        ((secureCleanup (secureCreateTempFile fs name).1
            (secureCreateTempFile fs name).2 false).1, .ok ()) ∧
      secureCleanup (secureCreateTempFile fs name).1 (secureCreateTempFile fs name).2 true =
        ((secureCreateTempFile fs name).1, .ok ()) ∧
      lookupFile (secureCreateTempFile fs name).1 (secureCreateTempFile fs name).2 = some 384 := by
  have h1 := cleanup_removes (secureCreateTempFile fs name).1 (secureCreateTempFile fs name).2
  refine ⟨h1.1, h1.2, cleanup_of_absent _ _ h1.2, rfl, ?_⟩
  show lookupFile (osChmod (fs ++ [(name, 384)]) name 384) name = some 384
  exact lookupFile_chmod_append fs name

/-- C10: the RAW entry point validates the input extension only against
the general nine-extension image allow-list, so the non-RAW path
"photo.png" passes its extension check (and with an available tool the
conversion proceeds); only the separate `ValidateARWFile` restriction
to .arw/.srf/.sr2 — which `ProcessARWToPNG` never invokes — rejects
it. -/
theorem c10_arw_extension_not_restricted :
    validateFileExtension "photo.png" = .ok () ∧
      (ProcessARWToPNG (ARWEnv.mk (some 100) true "tmpdir/arw_output_2.png" false 10) "photo.png"
        { DefaultARWProcessOptions with TempDir := "tmpdir" }).2 = .ok 10 ∧
      extractExt "photo.png" = some ".png" ∧
      validateARWStrictExt "photo.png" = .error "unsupported file extension: .png" := by
  refine ⟨?_, ?_, ?_, ?_⟩
  · with_unfolding_all rfl
  · with_unfolding_all rfl
  · with_unfolding_all rfl
  · with_unfolding_all rfl
